import Mathlib

/-!
Verification of the rblx-monitor repository: a CCU (concurrent users)
monitor that samples game populations, classifies deviations against a
rolling statistical baseline, and delivers at-most-once notifications.

The development shallowly embeds the relevant TypeScript sources:
JavaScript numbers are idealized as real numbers in the classifier
(where a square root occurs) and as rationals elsewhere; fallible
storage reads become Except values; the effectful loops become explicit
state-passing functions driven by outcome oracles and consulted
predicates.
-/

namespace RblxMonitor

/-! ## Data model shared by the classifier (src/anomaly-detector.ts, two variants) -/

/-- Direction of an anomaly, the TS union type up | down. -/
inductive Direction
  | up
  | down
deriving DecidableEq, Repr

/-- One row of the snapshots table as read back by getSnapshots:
timestamp and ccu are what the classifier consumes. -/
structure Snapshot where
  game_id : Int
  timestamp : Int
  ccu : Real

/-- The anomaly record built by the classifier (Omit of id and notified). -/
structure Anomaly where
  game_id : Int
  timestamp : Int
  delta : Real
  mean : Real
  stddev : Real
  threshold : Real
  direction : Direction

/-- The anomaly_settings row returned by db.ts getAnomalySettings. -/
structure SettingsRow where
  n_sigma : Real
  min_delta_threshold : Real
  custom_message : Option String

/-- db.ts getAnomalySettings: returns the singleton row, or the default
settings (n_sigma 3.0, min_delta_threshold 10, no custom message) when
the row is absent. -/
noncomputable def getAnomalySettings (row : Option SettingsRow) : SettingsRow :=
  row.getD ⟨3, 10, none⟩

/-- calculateMean from anomaly-detector.ts: 0 on an empty array, else the
arithmetic mean. -/
noncomputable def calculateMean (values : List Real) : Real :=
  if values.length = 0 then 0 else values.sum / values.length

/-- calculateStdDev from anomaly-detector.ts: the sample standard
deviation, degenerating to 0 when the array has at most one element
(denominator n - 1). -/
noncomputable def calculateStdDev (values : List Real) (mean : Real) : Real :=
  if values.length ≤ 1 then 0
  else Real.sqrt ((values.map (fun v => (v - mean) ^ 2)).sum / ((values.length : Real) - 1))

/-- getAnomalyDirection: up when the delta is positive, down otherwise. -/
noncomputable def getAnomalyDirection (delta : Real) : Direction :=
  if delta > 0 then .up else .down

namespace Detector

open Classical

/-- isAnomaly, settings-driven variant (src/unnamed/part_002 lines 65-68):
both the statistical test and the absolute-magnitude floor must hold. -/
def isAnomaly (delta stddev nSigma minDeltaThreshold : Real) : Prop :=
  |delta| > nSigma * stddev ∧ |delta| ≥ minDeltaThreshold

/-- analyzeGameForAnomalies, settings-driven variant (part_002 lines
80-151).  The settings row and the getSnapshots response are passed in as
the state the function reads; the surrounding try/catch turns a thrown
storage error into a null result.  The minPoints argument is the
MIN_POINTS_IN_WINDOW configuration constant and timestampNow stands for
Date.now() at record-creation time. -/
noncomputable def analyzeGameForAnomalies (settingsRow : Option SettingsRow)
    (minPoints : Nat) (snapshotsRes : Except String (List Snapshot))
    (gameId timestampNow : Int) (currentCcu : Real) : Option Anomaly :=
  match snapshotsRes with
  | .error _ => none
  | .ok snapshots =>
    let settings := getAnomalySettings settingsRow
    if snapshots.length < minPoints then none
    else
      let ccuValues := snapshots.map Snapshot.ccu
      let mean := calculateMean ccuValues
      let stddev := calculateStdDev ccuValues mean
      if stddev = 0 then none
      else
        let delta := currentCcu - mean
        if isAnomaly delta stddev settings.n_sigma settings.min_delta_threshold then
          some ⟨gameId, timestampNow, delta, mean, stddev,
                settings.n_sigma * stddev, getAnomalyDirection delta⟩
        else none

end Detector

namespace DetectorLegacy

open Classical

/-- isAnomaly, legacy variant (src/anomaly-detector.ts lines 32-38): the
minimum-delta floor is the hardcoded local constant MIN_DELTA_THRESHOLD
= 10, not a settings-store value. -/
def isAnomaly (delta stddev nSigma : Real) : Prop :=
  |delta| > nSigma * stddev ∧ |delta| ≥ 10

/-- analyzeGameForAnomalies, legacy variant (src/anomaly-detector.ts
lines 50-109): identical pipeline but the sigma multiplier comes from
the startup configuration (config.ANOMALY_N_SIGMA) and the delta floor
is the hardcoded 10; the anomaly-settings store is never consulted. -/
noncomputable def analyzeGameForAnomalies (cfgNSigma : Real)
    (minPoints : Nat) (snapshotsRes : Except String (List Snapshot))
    (gameId timestampNow : Int) (currentCcu : Real) : Option Anomaly :=
  match snapshotsRes with
  | .error _ => none
  | .ok snapshots =>
    if snapshots.length < minPoints then none
    else
      let ccuValues := snapshots.map Snapshot.ccu
      let mean := calculateMean ccuValues
      let stddev := calculateStdDev ccuValues mean
      if stddev = 0 then none
      else
        let delta := currentCcu - mean
        if isAnomaly delta stddev cfgNSigma then
          some ⟨gameId, timestampNow, delta, mean, stddev,
                cfgNSigma * stddev, getAnomalyDirection delta⟩
        else none

end DetectorLegacy

/-! ## Anomaly ledger and notifier (src/db.ts, src/anomaly-notifier.ts)

The numeric anomaly fields are idealized as rationals here, which keeps
the ledger state decidable; the notifier never computes square roots. -/

/-- A row of the games table (id, source_id, title, url). -/
structure Game where
  id : Int
  source_id : String
  title : String
  url : String
deriving DecidableEq, Repr

/-- A persisted row of the anomalies table, including the primary key and
the notified flag (INTEGER 0/1, modelled as Bool). -/
structure AnomalyRow where
  id : Nat
  game_id : Int
  timestamp : Int
  delta : Rat
  mean : Rat
  stddev : Rat
  threshold : Rat
  direction : Direction
  notified : Bool
deriving DecidableEq, Repr

/-- The data inserted by insertAnomaly: an Anomaly with id and notified
omitted (the Omit type in db.ts). -/
structure AnomalyData where
  game_id : Int
  timestamp : Int
  delta : Rat
  mean : Rat
  stddev : Rat
  threshold : Rat
  direction : Direction
deriving DecidableEq, Repr

/-- The anomalies table plus the autoincrement counter for primary keys. -/
structure DbState where
  anomalies : List AnomalyRow
  nextId : Nat
deriving DecidableEq, Repr

/-- db.ts insertAnomaly: appends a row whose notified column defaults to
0 when the caller does not supply one (notified ?? 0); returns the new
state and the inserted rowid.  The detector path (saveAnomaly) always
calls it without a notified value. -/
def insertAnomaly (db : DbState) (a : AnomalyData) (notifiedArg : Option Bool) :
    DbState × Nat :=
  let row : AnomalyRow :=
    ⟨db.nextId, a.game_id, a.timestamp, a.delta, a.mean, a.stddev, a.threshold,
     a.direction, notifiedArg.getD false⟩
  (⟨db.anomalies ++ [row], db.nextId + 1⟩, db.nextId)

/-- db.ts markAnomalyNotified: UPDATE anomalies SET notified = 1 WHERE
id matches. -/
def markAnomalyNotified (db : DbState) (id : Nat) : DbState :=
  ⟨db.anomalies.map (fun r => if r.id = id then { r with notified := true } else r),
   db.nextId⟩

/-- getUnnotifiedAnomalies (anomaly-detector.ts lines 128-138): the rows
with notified = 0 joined to their game row, ordered by timestamp
ascending.  The join uses the games-table primary key, so the first row
with the matching id stands for the unique match. -/
def getUnnotifiedAnomalies (games : List Game) (db : DbState) :
    List (AnomalyRow × Game) :=
  List.insertionSort (fun p q => p.1.timestamp ≤ q.1.timestamp)
    ((db.anomalies.filter (fun r => r.notified = false)).filterMap
      (fun r => (games.find? (fun g => g.id = r.game_id)).map (fun g => (r, g))))

/-- Outcome of one delivery attempt through the external channel:
sendTelegramNotification resolves true, resolves false, or the per-item
body throws. -/
inductive DeliveryOutcome
  | success
  | failure
  | thrown
deriving DecidableEq, Repr

/-- The for-loop of sendAnomalyNotifications (anomaly-notifier.ts lines
110-134): on confirmed success the anomaly is marked notified and the
sent counter is incremented; a false return or a thrown error only
increments the error counter and leaves the ledger untouched. -/
def sendLoop (deliver : Nat → DeliveryOutcome) :
    List (AnomalyRow × Game) → DbState → Nat → Nat → DbState × Nat × Nat
  | [], db, sent, errors => (db, sent, errors)
  | p :: rest, db, sent, errors =>
    match deliver p.1.id with
    | .success => sendLoop deliver rest (markAnomalyNotified db p.1.id) (sent + 1) errors
    | .failure => sendLoop deliver rest db sent (errors + 1)
    | .thrown => sendLoop deliver rest db sent (errors + 1)

/-- sendAnomalyNotifications (anomaly-notifier.ts lines 96-144): drains
the current unnotified set, returning the mutated ledger with the sent
and error counters. -/
def sendAnomalyNotifications (games : List Game) (deliver : Nat → DeliveryOutcome)
    (db : DbState) : DbState × Nat × Nat :=
  sendLoop deliver (getUnnotifiedAnomalies games db) db 0 0

/-! ## Retry-wrapped HTTP client (src/http.ts, src/unnamed/part_001) -/

/-- withJitter (part_001 lines 8-11): a jitter of up to 20 percent of the
base, subtracted or added depending on a second random draw.  The two
Math.random() calls are the rand1 and rand2 arguments. -/
def withJitter (baseMs rand1 rand2 : Rat) : Rat :=
  let jitter := rand1 * baseMs * (2 / 10)
  baseMs + (if rand2 < 1 / 2 then -jitter else jitter)

/-- The retry loop of HttpClient.get (part_001 lines 25-40), indexed by
the retries still allowed (totalAttempts = 1 + RETRY_ATTEMPTS, so
retriesLeft starts at RETRY_ATTEMPTS and the loop throws the last error
once attempt >= totalAttempts).  The attempt argument is the 0-based
index of the next attempt; results is the oracle giving each attempt's
outcome and rng the pair of random draws used for that backoff.  Returns
the final outcome together with the list of backoff sleeps performed. -/
def getGo (base : Rat) (rng : Nat → Rat × Rat) (results : Nat → Except String Int) :
    Nat → Nat → Except String Int × List Rat
  | 0, attempt =>
    (results attempt, [])
  | retriesLeft + 1, attempt =>
    match results attempt with
    | .ok v => (.ok v, [])
    | .error _ =>
      let backoff := withJitter (base * 2 ^ attempt) (rng attempt).1 (rng attempt).2
      let rest := getGo base rng results retriesLeft (attempt + 1)
      (rest.1, backoff :: rest.2)

/-- HttpClient.get: the first attempt plus RETRY_ATTEMPTS retries, with
exponential backoff base * 2 ^ (attempt - 1) jittered before each retry
and never before the first attempt. -/
def httpGet (retryAttempts : Nat) (base : Rat) (rng : Nat → Rat × Rat)
    (results : Nat → Except String Int) : Except String Int × List Rat :=
  getGo base rng results retryAttempts 0

/-! ## Circular sampling scheduler (src/roblox-parser.ts, src/unnamed/part_006)

The two loops circularOnlineParsing and startCircularParsingForDuration
are embedded as state-passing functions.  parseOnlineFromRoblox and the
snapshot insert are driven by a per-iteration outcome oracle; fuel bounds
the number of loop iterations examined (the while(true) loop has no
bound of its own). -/

/-- The outcome of one loop body: parseOnlineFromRoblox returned a count,
returned null, or the body threw. -/
inductive ParseResult
  | ok (n : Int)
  | nullResult
  | thrown (msg : String)
deriving DecidableEq, Repr

/-- One recorded onProgress invocation: current (1-based index in the
cycle), total, game title, successful and failed counters as passed. -/
structure ProgressCall where
  current : Nat
  total : Nat
  gameTitle : String
  successfulParses : Nat
  failedParses : Nat
deriving DecidableEq, Repr

/-- The mutable locals of the parsing loops, plus the observable traces:
saved snapshots, progress callbacks and pacing sleeps. -/
structure CycleState where
  successfulParses : Nat
  failedParses : Nat
  errors : List String
  currentIndex : Nat
  snapshots : List (Int × Int)
  progressLog : List ProgressCall
  sleeps : List Nat
deriving DecidableEq, Repr

/-- The loop locals at entry: counters zero, cursor zero, empty traces. -/
def initialCycleState : CycleState := ⟨0, 0, [], 0, [], [], []⟩

/-- Items processed so far: every iteration increments exactly one of the
two counters. -/
def processedCount (s : CycleState) : Nat :=
  s.successfulParses + s.failedParses

/-- Placeholder game for the out-of-bounds access games[currentIndex];
the loops keep currentIndex below games.length whenever the catalog is
non-empty, so it is never observed. -/
def defaultGame : Game := ⟨0, "", "", ""⟩

/-- The body of the while loop of circularOnlineParsing (part_006 lines
275-315): report progress with the counters as they stand, process the
item, advance the cursor modulo the catalog size, then sleep the fixed
1000 ms pause. -/
def circularStep (games : List Game) (outcome : ParseResult) (s : CycleState) :
    CycleState :=
  let totalGames := games.length
  let game := games.getD s.currentIndex defaultGame
  let s1 := { s with progressLog := s.progressLog ++
    [ProgressCall.mk (s.currentIndex + 1) totalGames game.title
      s.successfulParses s.failedParses] }
  let s2 :=
    match outcome with
    | .ok n =>
      { s1 with snapshots := s1.snapshots ++ [(game.id, n)],
                successfulParses := s1.successfulParses + 1 }
    | .nullResult =>
      { s1 with failedParses := s1.failedParses + 1,
                errors := s1.errors ++
                  ["Failed to parse online for game " ++ game.title ++
                   " (ID: " ++ toString game.id ++ ")"] }
    | .thrown msg =>
      { s1 with failedParses := s1.failedParses + 1,
                errors := s1.errors ++
                  ["Error processing game " ++ game.title ++
                   " (ID: " ++ toString game.id ++ "): " ++ msg] }
  { s2 with currentIndex := (s2.currentIndex + 1) % totalGames,
            sleeps := s2.sleeps ++ [1000] }

/-- The body of the while loop of startCircularParsingForDuration
(part_006 lines 372-427): identical item handling, but the pause after
each item is 2000 ms. -/
def durationStep (games : List Game) (outcome : ParseResult) (s : CycleState) :
    CycleState :=
  let totalGames := games.length
  let game := games.getD s.currentIndex defaultGame
  let s1 := { s with progressLog := s.progressLog ++
    [ProgressCall.mk (s.currentIndex + 1) totalGames game.title
      s.successfulParses s.failedParses] }
  let s2 :=
    match outcome with
    | .ok n =>
      { s1 with snapshots := s1.snapshots ++ [(game.id, n)],
                successfulParses := s1.successfulParses + 1 }
    | .nullResult =>
      { s1 with failedParses := s1.failedParses + 1,
                errors := s1.errors ++
                  ["Failed to parse online for game " ++ game.title ++
                   " (ID: " ++ toString game.id ++ ")"] }
    | .thrown msg =>
      { s1 with failedParses := s1.failedParses + 1,
                errors := s1.errors ++
                  ["Error processing game " ++ game.title ++
                   " (ID: " ++ toString game.id ++ "): " ++ msg] }
  { s2 with currentIndex := (s2.currentIndex + 1) % totalGames,
            sleeps := s2.sleeps ++ [2000] }

/-- The while(true) loop of circularOnlineParsing (part_006 lines
268-316): shouldStop is consulted at the top of every iteration, before
the next item is touched; outcomes are indexed by the number of items
already processed.  Fuel bounds how many iterations are unfolded. -/
def circularRun (games : List Game) (outcomes : Nat → ParseResult)
    (shouldStop : Nat → Bool) : Nat → CycleState → CycleState
  | 0, s => s
  | fuel + 1, s =>
    if shouldStop (processedCount s) then s
    else circularRun games outcomes shouldStop fuel
      (circularStep games (outcomes (processedCount s)) s)

/-- The summary returned by circularOnlineParsing. -/
structure RunSummary where
  totalGames : Nat
  successfulParses : Nat
  failedParses : Nat
  errors : List String
deriving DecidableEq, Repr

/-- circularOnlineParsing (part_006 lines 243-320): empty catalog returns
the explanatory summary immediately; otherwise the loop runs from the
initial state and its counters are returned on stop. -/
def circularOnlineParsing (games : List Game) (outcomes : Nat → ParseResult)
    (shouldStop : Nat → Bool) (fuel : Nat) : RunSummary :=
  if games.length = 0 then ⟨0, 0, 0, ["No games in database"]⟩
  else
    let s := circularRun games outcomes shouldStop fuel initialCycleState
    RunSummary.mk games.length s.successfulParses s.failedParses s.errors

/-- The loop state of startCircularParsingForDuration: the shared item
state plus elapsed wall time, accumulated per-item processing time and
the totalCycles counter, which the source declares and returns but never
increments. -/
structure DurationState where
  core : CycleState
  elapsedMs : Nat
  totalProcessingTime : Nat
  totalCycles : Nat
deriving DecidableEq, Repr

/-- The while loop of startCircularParsingForDuration (part_006 lines
365-428): runs while elapsed < durationMs, then consults shouldStop;
itemTimes gives each iteration's wall-clock processing time, and each
iteration also spends the 2000 ms pause. -/
def durationRun (durationMs : Nat) (games : List Game) (outcomes : Nat → ParseResult)
    (itemTimes : Nat → Nat) (shouldStop : Nat → Bool) :
    Nat → DurationState → DurationState
  | 0, s => s
  | fuel + 1, s =>
    if durationMs ≤ s.elapsedMs then s
    else if shouldStop (processedCount s.core) then s
    else
      let t := itemTimes (processedCount s.core)
      let core := durationStep games (outcomes (processedCount s.core)) s.core
      durationRun durationMs games outcomes itemTimes shouldStop fuel
        ⟨core, s.elapsedMs + t + 2000, s.totalProcessingTime + t, s.totalCycles⟩

/-- The summary returned by startCircularParsingForDuration. -/
structure DurationSummary where
  totalGames : Nat
  successfulParses : Nat
  failedParses : Nat
  errors : List String
  totalCycles : Nat
  averageTimePerGame : Int
deriving DecidableEq, Repr

/-- Math.round(totalProcessingTime / processed || 0): 0 when nothing was
processed, else the rounded average. -/
def averageTimePerGame (totalProcessingTime processed : Nat) : Int :=
  if processed = 0 then 0 else round ((totalProcessingTime : Rat) / processed)

/-- startCircularParsingForDuration (part_006 lines 327-451): empty
catalog short-circuits; otherwise the loop runs from zeroed state and
the summary carries the never-incremented totalCycles. -/
def startCircularParsingForDuration (durationMs : Nat) (games : List Game)
    (outcomes : Nat → ParseResult) (itemTimes : Nat → Nat)
    (shouldStop : Nat → Bool) (fuel : Nat) : DurationSummary :=
  if games.length = 0 then ⟨0, 0, 0, ["No games in database"], 0, 0⟩
  else
    let s := durationRun durationMs games outcomes itemTimes shouldStop fuel
      ⟨initialCycleState, 0, 0, 0⟩
    DurationSummary.mk games.length s.core.successfulParses s.core.failedParses
      s.core.errors s.totalCycles
      (averageTimePerGame s.totalProcessingTime (processedCount s.core))

/-- The completed-cycles line of the completion message sent by
TelegramBot.handleFindAnomalies (src/unnamed/part_004): it interpolates
result.totalCycles. -/
def completedCyclesLine (totalCycles : Nat) : String :=
  "🔄 Завершено кругов: " ++ toString totalCycles

/-- The baseline mean of a sample window, as the classifier computes it. -/
noncomputable def windowMean (snapshots : List Snapshot) : Real :=
  calculateMean (snapshots.map Snapshot.ccu)

/-- The baseline sample standard deviation of a sample window, as the
classifier computes it. -/
noncomputable def windowStdDev (snapshots : List Snapshot) : Real :=
  calculateStdDev (snapshots.map Snapshot.ccu) (windowMean snapshots)

/-- The concrete five-sample history of the specification examples:
ccu values 90, 90, 100, 110, 110, with mean 100 and sample standard
deviation 10. -/
noncomputable def specWindow : List Snapshot :=
  [⟨1, 0, 90⟩, ⟨1, 0, 90⟩, ⟨1, 0, 100⟩, ⟨1, 0, 110⟩, ⟨1, 0, 110⟩]

/-- A constant five-sample history used as the degenerate-variance
witness. -/
noncomputable def constWindow : List Snapshot :=
  [⟨1, 0, 100⟩, ⟨1, 1, 100⟩, ⟨1, 2, 100⟩, ⟨1, 3, 100⟩, ⟨1, 4, 100⟩]

/-- Every row carrying the given id is already marked notified. -/
def notifiedLatched (db : DbState) (i : Nat) : Prop :=
  ∀ r ∈ db.anomalies, r.id = i → r.notified = true

/-- A one-row games catalog used by concrete witnesses. -/
def witnessGame : Game := ⟨1, "g1", "Game One", "https://games/1"⟩

/-- A two-anomaly ledger used by concrete witnesses: both rows pending. -/
def witnessDb : DbState :=
  ⟨[⟨0, 1, 10, 30, 100, 10, 30, .up, false⟩,
    ⟨1, 1, 20, 40, 100, 10, 30, .up, false⟩], 2⟩

/-- A delivery oracle that fails anomaly 0 and succeeds elsewhere. -/
def witnessDeliver : Nat → DeliveryOutcome :=
  fun i => if i = 0 then .failure else .success

/-- The pending entry whose delivery fails in the witness scenario. -/
def witnessPending : AnomalyRow × Game :=
  (⟨0, 1, 10, 30, 100, 10, 30, .up, false⟩, witnessGame)

/-- A five-game catalog for the cancellation scenario. -/
def fiveGames : List Game :=
  [⟨1, "1", "G1", "u1"⟩, ⟨2, "2", "G2", "u2"⟩, ⟨3, "3", "G3", "u3"⟩,
   ⟨4, "4", "G4", "u4"⟩, ⟨5, "5", "G5", "u5"⟩]

/-- A one-game catalog used in concrete runs. -/
def demoGame : Game := ⟨1, "1", "G", "u"⟩

/-! ## Classifier evaluation lemmas -/

lemma list_sum_all_eq (l : List Real) (c : Real) (h : ∀ x ∈ l, x = c) :
    l.sum = l.length * c := by
  induction l with
  | nil => simp
  | cons a t ih =>
    have ha : a = c := h a (by simp)
    have ht : t.sum = t.length * c := ih (fun x hx => h x (by simp [hx]))
    simp [ha, ht]
    ring

lemma calculateMean_const (l : List Real) (c : Real) (hne : l ≠ [])
    (h : ∀ x ∈ l, x = c) : calculateMean l = c := by
  have hlen : l.length ≠ 0 := by
    simpa [List.length_eq_zero] using hne
  unfold calculateMean
  rw [if_neg hlen, list_sum_all_eq l c h]
  have : (l.length : Real) ≠ 0 := Nat.cast_ne_zero.mpr hlen
  field_simp

lemma calculateStdDev_const (l : List Real) (c : Real)
    (h : ∀ x ∈ l, x = c) : calculateStdDev l (calculateMean l) = 0 := by
  unfold calculateStdDev
  by_cases hlen : l.length ≤ 1
  · rw [if_pos hlen]
  · rw [if_neg hlen]
    have hne : l ≠ [] := by
      intro hnil
      simp [hnil] at hlen
    rw [calculateMean_const l c hne h]
    have hz : (l.map (fun v => (v - c) ^ 2)).sum = 0 := by
      have : ∀ x ∈ l.map (fun v => (v - c) ^ 2), x = 0 := by
        intro x hx
        rcases List.mem_map.mp hx with ⟨v, hv, rfl⟩
        rw [h v hv]
        ring
      rw [list_sum_all_eq _ 0 this]
      ring
    rw [hz]
    simp

lemma specWindow_mean : windowMean specWindow = 100 := by
  unfold windowMean specWindow calculateMean
  norm_num [List.sum_cons]

lemma specWindow_stddev : windowStdDev specWindow = 10 := by
  unfold windowStdDev windowMean specWindow calculateStdDev
  rw [if_neg (by norm_num)]
  rw [show calculateMean (List.map Snapshot.ccu
      [⟨1, 0, 90⟩, ⟨1, 0, 90⟩, ⟨1, 0, 100⟩, ⟨1, 0, 110⟩, ⟨1, 0, 110⟩]) = 100 by
    unfold calculateMean
    norm_num [List.sum_cons]]
  have : ((List.map Snapshot.ccu
      [⟨1, 0, 90⟩, ⟨1, 0, 90⟩, ⟨1, 0, 100⟩, ⟨1, 0, 110⟩, ⟨1, 0, 110⟩]).map
        (fun v => (v - (100 : Real)) ^ 2)).sum = 400 := by
    norm_num [List.sum_cons]
  rw [this]
  rw [show (400 : Real) / (((List.map Snapshot.ccu
      [⟨1, 0, 90⟩, ⟨1, 0, 90⟩, ⟨1, 0, 100⟩, ⟨1, 0, 110⟩, ⟨1, 0, 110⟩]).length : Real)
        - 1) = 10 ^ 2 by norm_num]
  exact Real.sqrt_sq (by norm_num)

open Classical in
lemma analyze_eval (row : SettingsRow) (minPoints : Nat) (snaps : List Snapshot)
    (gid now : Int) (ccu m s : Real)
    (hm : windowMean snaps = m) (hs : windowStdDev snaps = s)
    (hlen : ¬ snaps.length < minPoints) (hs0 : s ≠ 0) :
    Detector.analyzeGameForAnomalies (some row) minPoints (.ok snaps) gid now ccu =
      if Detector.isAnomaly (ccu - m) s row.n_sigma row.min_delta_threshold then
        some ⟨gid, now, ccu - m, m, s, row.n_sigma * s, getAnomalyDirection (ccu - m)⟩
      else none := by
  unfold windowMean at hm
  unfold windowStdDev windowMean at hs
  rw [hm] at hs
  simp only [Detector.analyzeGameForAnomalies, getAnomalySettings, Option.getD]
  rw [if_neg hlen, hm, hs, if_neg hs0]

lemma analyze_insufficient (row : Option SettingsRow) (minPoints : Nat)
    (snaps : List Snapshot) (gid now : Int) (ccu : Real)
    (hlen : snaps.length < minPoints) :
    Detector.analyzeGameForAnomalies row minPoints (.ok snaps) gid now ccu = none := by
  simp only [Detector.analyzeGameForAnomalies]
  rw [if_pos hlen]

lemma analyze_stddev_zero (row : Option SettingsRow) (minPoints : Nat)
    (snaps : List Snapshot) (gid now : Int) (ccu : Real)
    (hlen : ¬ snaps.length < minPoints) (hs : windowStdDev snaps = 0) :
    Detector.analyzeGameForAnomalies row minPoints (.ok snaps) gid now ccu = none := by
  unfold windowStdDev windowMean at hs
  simp only [Detector.analyzeGameForAnomalies, getAnomalySettings, Option.getD]
  rw [if_neg hlen, if_pos hs]

lemma analyzeLegacy_insufficient (cfgNSigma : Real) (minPoints : Nat)
    (snaps : List Snapshot) (gid now : Int) (ccu : Real)
    (hlen : snaps.length < minPoints) :
    DetectorLegacy.analyzeGameForAnomalies cfgNSigma minPoints (.ok snaps) gid now ccu
      = none := by
  simp only [DetectorLegacy.analyzeGameForAnomalies]
  rw [if_pos hlen]

lemma analyzeLegacy_stddev_zero (cfgNSigma : Real) (minPoints : Nat)
    (snaps : List Snapshot) (gid now : Int) (ccu : Real)
    (hlen : ¬ snaps.length < minPoints) (hs : windowStdDev snaps = 0) :
    DetectorLegacy.analyzeGameForAnomalies cfgNSigma minPoints (.ok snaps) gid now ccu
      = none := by
  unfold windowStdDev windowMean at hs
  simp only [DetectorLegacy.analyzeGameForAnomalies]
  rw [if_neg hlen, if_pos hs]

open Classical in
lemma analyzeLegacy_eval (cfgNSigma : Real) (minPoints : Nat) (snaps : List Snapshot)
    (gid now : Int) (ccu m s : Real)
    (hm : windowMean snaps = m) (hs : windowStdDev snaps = s)
    (hlen : ¬ snaps.length < minPoints) (hs0 : s ≠ 0) :
    DetectorLegacy.analyzeGameForAnomalies cfgNSigma minPoints (.ok snaps) gid now ccu =
      if DetectorLegacy.isAnomaly (ccu - m) s cfgNSigma then
        some ⟨gid, now, ccu - m, m, s, cfgNSigma * s, getAnomalyDirection (ccu - m)⟩
      else none := by
  unfold windowMean at hm
  unfold windowStdDev windowMean at hs
  rw [hm] at hs
  simp only [DetectorLegacy.analyzeGameForAnomalies]
  rw [if_neg hlen, hm, hs, if_neg hs0]

/-! ## Claim theorems for the classifier -/

/-- C1: with a computed baseline of mean m and sample standard deviation
s > 0 and settings nSigma and minDeltaThreshold, the classifier returns a
non-null Anomaly iff abs(currentCcu - m) > nSigma * s and
abs(currentCcu - m) >= minDeltaThreshold; for the history with mean 100
and stddev 10, nSigma 3 and minDeltaThreshold 10, currentCcu 135 yields
an anomaly with direction up and threshold 30 while 129 yields null. -/
theorem classifier_threshold_iff :
    (∀ (nSigma minDelta : Real) (msg : Option String) (minPoints : Nat)
       (snaps : List Snapshot) (gid now : Int) (ccu : Real),
       minPoints ≤ snaps.length →
       0 < windowStdDev snaps →
       ((Detector.analyzeGameForAnomalies (some ⟨nSigma, minDelta, msg⟩) minPoints
           (.ok snaps) gid now ccu).isSome = true ↔
         (|ccu - windowMean snaps| > nSigma * windowStdDev snaps ∧
          |ccu - windowMean snaps| ≥ minDelta))) ∧
    Detector.analyzeGameForAnomalies (some ⟨3, 10, none⟩) 5 (.ok specWindow) 1 0 135 =
      some ⟨1, 0, 35, 100, 10, 30, .up⟩ ∧
    Detector.analyzeGameForAnomalies (some ⟨3, 10, none⟩) 5 (.ok specWindow) 1 0 129 =
      none := by
  refine ⟨?_, ?_, ?_⟩
  · intro nSigma minDelta msg minPoints snaps gid now ccu h1 h2
    rw [analyze_eval ⟨nSigma, minDelta, msg⟩ minPoints snaps gid now ccu
        (windowMean snaps) (windowStdDev snaps) rfl rfl (not_lt.mpr h1) (ne_of_gt h2)]
    by_cases hA : Detector.isAnomaly (ccu - windowMean snaps) (windowStdDev snaps)
        nSigma minDelta
    · rw [if_pos hA]
      exact iff_of_true rfl hA
    · rw [if_neg hA]
      exact iff_of_false (by simp) hA
  · rw [analyze_eval ⟨3, 10, none⟩ 5 specWindow 1 0 135 100 10
        specWindow_mean specWindow_stddev (by norm_num [specWindow]) (by norm_num)]
    have hA : Detector.isAnomaly ((135 : Real) - 100) 10 3 10 := by
      constructor
      · rw [show (135 : Real) - 100 = 35 by norm_num,
            abs_of_nonneg (by norm_num : (0 : Real) ≤ 35)]
        norm_num
      · rw [show (135 : Real) - 100 = 35 by norm_num,
            abs_of_nonneg (by norm_num : (0 : Real) ≤ 35)]
        norm_num
    rw [if_pos hA]
    simp only [getAnomalyDirection, Option.some.injEq]
    rw [if_pos (by norm_num : (135 : Real) - 100 > 0)]
    simp only [Anomaly.mk.injEq]
    norm_num
  · rw [analyze_eval ⟨3, 10, none⟩ 5 specWindow 1 0 129 100 10
        specWindow_mean specWindow_stddev (by norm_num [specWindow]) (by norm_num)]
    have hA : ¬ Detector.isAnomaly ((129 : Real) - 100) 10 3 10 := by
      rintro ⟨hstat, _⟩
      rw [show (129 : Real) - 100 = 29 by norm_num,
          abs_of_nonneg (by norm_num : (0 : Real) ≤ 29)] at hstat
      norm_num at hstat
    rw [if_neg hA]

/-- Witness for C1: the general equivalence instantiated at the concrete
mean-100 stddev-10 window with currentCcu 135. -/
theorem classifier_threshold_iff_witness :
    (5 : Nat) ≤ specWindow.length ∧ 0 < windowStdDev specWindow ∧
    ((Detector.analyzeGameForAnomalies (some ⟨3, 10, none⟩) 5
        (.ok specWindow) 1 0 135).isSome = true ↔
      (|(135 : Real) - windowMean specWindow| > 3 * windowStdDev specWindow ∧
       |(135 : Real) - windowMean specWindow| ≥ 10)) :=
  ⟨by norm_num [specWindow],
   by rw [specWindow_stddev]; norm_num,
   classifier_threshold_iff.1 3 10 none 5 specWindow 1 0 135
     (by norm_num [specWindow]) (by rw [specWindow_stddev]; norm_num)⟩

/-- C9: a sample window whose ccu values are all equal, or with at most
one sample, has computed stddev 0, and the classifier returns null on it
for every settings row, minimum-point configuration and current ccu. -/
theorem constant_history_stddev_zero_null (snaps : List Snapshot)
    (h : (∃ c, ∀ s ∈ snaps, s.ccu = c) ∨ snaps.length ≤ 1) :
    windowStdDev snaps = 0 ∧
    ∀ (row : Option SettingsRow) (minPoints : Nat) (gid now : Int) (ccu : Real),
      Detector.analyzeGameForAnomalies row minPoints (.ok snaps) gid now ccu = none := by
  have hstd : windowStdDev snaps = 0 := by
    rcases h with ⟨c, hc⟩ | hlen
    · unfold windowStdDev windowMean
      refine calculateStdDev_const _ c ?_
      intro x hx
      rcases List.mem_map.mp hx with ⟨s, hs, rfl⟩
      exact hc s hs
    · unfold windowStdDev calculateStdDev
      rw [if_pos (by simpa using hlen)]
  refine ⟨hstd, ?_⟩
  intro row minPoints gid now ccu
  by_cases hlen : snaps.length < minPoints
  · exact analyze_insufficient row minPoints snaps gid now ccu hlen
  · exact analyze_stddev_zero row minPoints snaps gid now ccu hlen hstd

/-- Witness for C9: the all-100 window has stddev 0 and classifies as
null at settings (3, 10) and currentCcu 135. -/
theorem constant_history_stddev_zero_null_witness :
    ((∃ c, ∀ s ∈ constWindow, s.ccu = c) ∨ constWindow.length ≤ 1) ∧
    windowStdDev constWindow = 0 ∧
    Detector.analyzeGameForAnomalies (some ⟨3, 10, none⟩) 5
      (.ok constWindow) 1 0 135 = none := by
  have hconst : ∀ s ∈ constWindow, s.ccu = (100 : Real) := by
    intro s hs
    simp only [constWindow, List.mem_cons, List.not_mem_nil, or_false] at hs
    rcases hs with rfl | rfl | rfl | rfl | rfl <;> rfl
  have h := constant_history_stddev_zero_null constWindow (Or.inl ⟨100, hconst⟩)
  exact ⟨Or.inl ⟨100, hconst⟩, h.1, h.2 (some ⟨3, 10, none⟩) 5 1 0 135⟩

/-- C5 counterexample: a storage read error raised while retrieving the
sample window is not surfaced to the caller; the classifier catches it
and returns null, the same value an insufficient-evidence window
produces, so the two cases are not distinguishable. -/
theorem storage_error_swallowed_counterexample :
    Detector.analyzeGameForAnomalies (some ⟨3, 10, none⟩) 5
      (.error "storage read failure") 1 0 135 = none ∧
    Detector.analyzeGameForAnomalies (some ⟨3, 10, none⟩) 5
      (.error "storage read failure") 1 0 135 =
      Detector.analyzeGameForAnomalies (some ⟨3, 10, none⟩) 5 (.ok []) 1 0 135 := by
  have h1 : Detector.analyzeGameForAnomalies (some ⟨3, 10, none⟩) 5
      (.error "storage read failure") 1 0 135 = none := rfl
  have h2 : Detector.analyzeGameForAnomalies (some ⟨3, 10, none⟩) 5
      (.ok []) 1 0 135 = none :=
    analyze_insufficient _ 5 [] 1 0 135 (by norm_num)
  exact ⟨h1, h1.trans h2.symm⟩

/-- C5 amended: a storage read error during sample retrieval is caught
inside the classifier (both variants), logged, and converted to the null
result, indistinguishable from the no-anomaly answer; it is never
propagated to the caller. -/
theorem storage_error_swallowed_amended :
    ∀ (row : Option SettingsRow) (cfgNSigma : Real) (minPoints : Nat) (e : String)
      (gid now : Int) (ccu : Real),
      Detector.analyzeGameForAnomalies row minPoints (.error e) gid now ccu = none ∧
      DetectorLegacy.analyzeGameForAnomalies cfgNSigma minPoints (.error e) gid now ccu
        = none := by
  intro row cfgNSigma minPoints e gid now ccu
  exact ⟨rfl, rfl⟩

/-- C3 counterexample: with the settings store updated to n_sigma 0.4 and
min_delta_threshold 0, the legacy classifier variant
(src/anomaly-detector.ts), run with the startup nSigma 0.4, still
suppresses the anomaly at currentCcu 105 over the mean-100 stddev-10
window because of its fixed built-in floor of 10, while a classification
that actually honors the stored settings flags it. -/
theorem settings_fresh_read_counterexample :
    DetectorLegacy.analyzeGameForAnomalies (4 / 10) 5 (.ok specWindow) 1 0 105 =
      none ∧
    (Detector.analyzeGameForAnomalies (some ⟨4 / 10, 0, none⟩) 5
      (.ok specWindow) 1 0 105).isSome = true := by
  constructor
  · rw [analyzeLegacy_eval (4 / 10) 5 specWindow 1 0 105 100 10
        specWindow_mean specWindow_stddev (by norm_num [specWindow]) (by norm_num)]
    have hA : ¬ DetectorLegacy.isAnomaly ((105 : Real) - 100) 10 (4 / 10) := by
      rintro ⟨_, hfloor⟩
      rw [show (105 : Real) - 100 = 5 by norm_num,
          abs_of_nonneg (by norm_num : (0 : Real) ≤ 5)] at hfloor
      norm_num at hfloor
    rw [if_neg hA]
  · rw [analyze_eval ⟨4 / 10, 0, none⟩ 5 specWindow 1 0 105 100 10
        specWindow_mean specWindow_stddev (by norm_num [specWindow]) (by norm_num)]
    have hA : Detector.isAnomaly ((105 : Real) - 100) 10 (4 / 10) 0 := by
      constructor
      · rw [show (105 : Real) - 100 = 5 by norm_num,
            abs_of_nonneg (by norm_num : (0 : Real) ≤ 5)]
        norm_num
      · rw [show (105 : Real) - 100 = 5 by norm_num,
            abs_of_nonneg (by norm_num : (0 : Real) ≤ 5)]
        norm_num
    rw [if_pos hA]
    rfl

/-- C3 amended: the settings-driven classifier variant (part_002) reads
nSigma and minDeltaThreshold from the settings store on each
classification, so a store update changes the very next result; but the
legacy variant (src/anomaly-detector.ts) never consults the store: it
uses the startup-config nSigma and a fixed built-in minimum delta of 10,
under which any deviation smaller than 10 is never anomalous no matter
what the store holds. -/
theorem settings_fresh_read_amended :
    ((Detector.analyzeGameForAnomalies (some ⟨4 / 10, 0, none⟩) 5
        (.ok specWindow) 1 0 105).isSome = true ∧
     Detector.analyzeGameForAnomalies (some ⟨4 / 10, 6, none⟩) 5
        (.ok specWindow) 1 0 105 = none) ∧
    ∀ (cfgNSigma : Real) (minPoints : Nat) (snaps : List Snapshot)
      (gid now : Int) (ccu : Real),
      |ccu - windowMean snaps| < 10 →
      DetectorLegacy.analyzeGameForAnomalies cfgNSigma minPoints (.ok snaps) gid now ccu
        = none := by
  constructor
  · constructor
    · rw [analyze_eval ⟨4 / 10, 0, none⟩ 5 specWindow 1 0 105 100 10
          specWindow_mean specWindow_stddev (by norm_num [specWindow]) (by norm_num)]
      have hA : Detector.isAnomaly ((105 : Real) - 100) 10 (4 / 10) 0 := by
        constructor
        · rw [show (105 : Real) - 100 = 5 by norm_num,
              abs_of_nonneg (by norm_num : (0 : Real) ≤ 5)]
          norm_num
        · rw [show (105 : Real) - 100 = 5 by norm_num,
              abs_of_nonneg (by norm_num : (0 : Real) ≤ 5)]
          norm_num
      rw [if_pos hA]
      rfl
    · rw [analyze_eval ⟨4 / 10, 6, none⟩ 5 specWindow 1 0 105 100 10
          specWindow_mean specWindow_stddev (by norm_num [specWindow]) (by norm_num)]
      have hA : ¬ Detector.isAnomaly ((105 : Real) - 100) 10 (4 / 10) 6 := by
        rintro ⟨_, hfloor⟩
        rw [show (105 : Real) - 100 = 5 by norm_num,
            abs_of_nonneg (by norm_num : (0 : Real) ≤ 5)] at hfloor
        norm_num at hfloor
      rw [if_neg hA]
  · intro cfgNSigma minPoints snaps gid now ccu hsmall
    by_cases hlen : snaps.length < minPoints
    · exact analyzeLegacy_insufficient cfgNSigma minPoints snaps gid now ccu hlen
    · by_cases hs : windowStdDev snaps = 0
      · exact analyzeLegacy_stddev_zero cfgNSigma minPoints snaps gid now ccu hlen hs
      · rw [analyzeLegacy_eval cfgNSigma minPoints snaps gid now ccu
            (windowMean snaps) (windowStdDev snaps) rfl rfl hlen hs]
        have hA : ¬ DetectorLegacy.isAnomaly (ccu - windowMean snaps)
            (windowStdDev snaps) cfgNSigma := by
          rintro ⟨_, hfloor⟩
          exact absurd hsmall (not_lt.mpr hfloor)
        rw [if_neg hA]

/-- Witness for the amended C3: the legacy variant at the concrete
mean-100 window with currentCcu 105 (deviation 5, below the built-in
floor of 10) returns null. -/
theorem settings_fresh_read_amended_witness :
    |(105 : Real) - windowMean specWindow| < 10 ∧
    DetectorLegacy.analyzeGameForAnomalies 3 5 (.ok specWindow) 1 0 105 = none := by
  have hsmall : |(105 : Real) - windowMean specWindow| < 10 := by
    rw [specWindow_mean, show (105 : Real) - 100 = 5 by norm_num,
        abs_of_nonneg (by norm_num : (0 : Real) ≤ 5)]
    norm_num
  exact ⟨hsmall, settings_fresh_read_amended.2 3 5 specWindow 1 0 105 hsmall⟩

/-! ## Ledger latch lemmas -/

lemma markAnomalyNotified_latched (db : DbState) (i j : Nat)
    (h : notifiedLatched db i) : notifiedLatched (markAnomalyNotified db j) i := by
  intro r' hr' hid
  rcases List.mem_map.mp hr' with ⟨r, hr, rfl⟩
  by_cases hj : r.id = j
  · simp [hj]
  · simp only [if_neg hj] at hid ⊢
    exact h r hr hid

lemma sendLoop_latched (deliver : Nat → DeliveryOutcome) :
    ∀ (ps : List (AnomalyRow × Game)) (db : DbState) (sent errors i : Nat),
      notifiedLatched db i → notifiedLatched (sendLoop deliver ps db sent errors).1 i := by
  intro ps
  induction ps with
  | nil => intro db sent errors i h; exact h
  | cons p rest ih =>
    intro db sent errors i h
    simp only [sendLoop]
    cases hdel : deliver p.1.id with
    | success => exact ih _ _ _ i (markAnomalyNotified_latched db i p.1.id h)
    | failure => exact ih _ _ _ i h
    | thrown => exact ih _ _ _ i h

lemma sendLoop_preserves_row (deliver : Nat → DeliveryOutcome) :
    ∀ (ps : List (AnomalyRow × Game)) (db : DbState) (sent errors : Nat)
      (r : AnomalyRow),
      r ∈ db.anomalies →
      (∀ p ∈ ps, deliver p.1.id = .success → p.1.id ≠ r.id) →
      r ∈ (sendLoop deliver ps db sent errors).1.anomalies := by
  intro ps
  induction ps with
  | nil => intro db sent errors r hr _; exact hr
  | cons p rest ih =>
    intro db sent errors r hr hids
    simp only [sendLoop]
    cases hdel : deliver p.1.id with
    | success =>
      have hne : r.id ≠ p.1.id :=
        fun h => hids p (by simp) hdel h.symm
      have hr' : r ∈ (markAnomalyNotified db p.1.id).anomalies := by
        refine List.mem_map.mpr ⟨r, hr, ?_⟩
        rw [if_neg hne]
      exact ih _ _ _ r hr' (fun q hq => hids q (by simp [hq]))
    | failure => exact ih _ _ _ r hr (fun q hq => hids q (by simp [hq]))
    | thrown => exact ih _ _ _ r hr (fun q hq => hids q (by simp [hq]))

lemma sendLoop_db_eq_fold (deliver : Nat → DeliveryOutcome) :
    ∀ (ps : List (AnomalyRow × Game)) (db : DbState) (sent errors : Nat),
      (sendLoop deliver ps db sent errors).1 =
        ps.foldl (fun d p =>
          if deliver p.1.id = .success then markAnomalyNotified d p.1.id else d) db := by
  intro ps
  induction ps with
  | nil => intro db sent errors; rfl
  | cons p rest ih =>
    intro db sent errors
    simp only [sendLoop, List.foldl_cons]
    cases hdel : deliver p.1.id with
    | success => rw [if_pos rfl]; exact ih _ _ _
    | failure => rw [if_neg (by simp [hdel])]; exact ih _ _ _
    | thrown => rw [if_neg (by simp [hdel])]; exact ih _ _ _

lemma filterMap_join_fst (games : List Game) :
    ∀ l : List AnomalyRow,
      (l.filterMap (fun r => (games.find? (fun g => g.id = r.game_id)).map
          (fun g => (r, g)))).map Prod.fst =
        l.filter (fun r => (games.find? (fun g => g.id = r.game_id)).isSome) := by
  intro l
  induction l with
  | nil => rfl
  | cons r t ih =>
    cases hf : games.find? (fun g => g.id = r.game_id) with
    | none => simp [List.filterMap_cons, List.filter_cons, hf, ih]
    | some g => simp [List.filterMap_cons, List.filter_cons, hf, ih]

lemma pending_ids_nodup (games : List Game) (db : DbState)
    (h : (db.anomalies.map AnomalyRow.id).Nodup) :
    ((getUnnotifiedAnomalies games db).map (fun p => p.1.id)).Nodup := by
  have hperm : List.Perm (getUnnotifiedAnomalies games db)
      ((db.anomalies.filter (fun r => r.notified = false)).filterMap
        (fun r => (games.find? (fun g => g.id = r.game_id)).map (fun g => (r, g)))) :=
    List.perm_insertionSort _ _
  rw [List.Perm.nodup_iff (hperm.map _)]
  have : (((db.anomalies.filter (fun r => r.notified = false)).filterMap
      (fun r => (games.find? (fun g => g.id = r.game_id)).map (fun g => (r, g)))).map
        (fun p => p.1.id)) =
      (((db.anomalies.filter (fun r => r.notified = false)).filterMap
      (fun r => (games.find? (fun g => g.id = r.game_id)).map (fun g => (r, g)))).map
        Prod.fst).map AnomalyRow.id := by
    rw [List.map_map]
    rfl
  rw [this, filterMap_join_fst]
  refine List.Sublist.nodup (List.Sublist.map AnomalyRow.id ?_) h
  exact ((db.anomalies.filter _).filter_sublist.trans db.anomalies.filter_sublist)

lemma mem_pending_iff (games : List Game) (db : DbState) (p : AnomalyRow × Game) :
    p ∈ getUnnotifiedAnomalies games db ↔
      (p.1 ∈ db.anomalies ∧ p.1.notified = false ∧
       games.find? (fun g => g.id = p.1.game_id) = some p.2) := by
  unfold getUnnotifiedAnomalies
  rw [List.mem_insertionSort, List.mem_filterMap]
  constructor
  · rintro ⟨r, hr, hmap⟩
    rcases Option.map_eq_some'.mp hmap with ⟨g, hg, hpair⟩
    have hr1 : p.1 = r := by rw [← hpair]
    have hg2 : p.2 = g := by rw [← hpair]
    rcases List.mem_filter.mp hr with ⟨hmem, hnot⟩
    refine ⟨hr1 ▸ hmem, ?_, ?_⟩
    · rw [hr1]
      simpa using hnot
    · rw [hr1, hg2]
      exact hg
  · rintro ⟨hmem, hnot, hfind⟩
    refine ⟨p.1, List.mem_filter.mpr ⟨hmem, by simp [hnot]⟩, ?_⟩
    rw [hfind]
    rfl

lemma sendAnomalyNotifications_games_const (games : List Game)
    (deliver : Nat → DeliveryOutcome) (db : DbState) (r : AnomalyRow)
    (hmem : r ∈ (sendAnomalyNotifications games deliver db).1.anomalies) :
    ∃ r0 ∈ db.anomalies, r0.id = r.id ∧ r0.game_id = r.game_id ∧
      r0.timestamp = r.timestamp := by
  rw [sendAnomalyNotifications, sendLoop_db_eq_fold] at hmem
  revert hmem
  generalize getUnnotifiedAnomalies games db = ps
  induction ps generalizing db with
  | nil => intro hmem; exact ⟨r, hmem, rfl, rfl, rfl⟩
  | cons p rest ih =>
    intro hmem
    simp only [List.foldl_cons] at hmem
    by_cases hdel : deliver p.1.id = .success
    · rw [if_pos hdel] at hmem
      rcases ih (markAnomalyNotified db p.1.id) hmem with ⟨r1, hr1, hids⟩
      rcases List.mem_map.mp hr1 with ⟨r0, hr0, hr01⟩
      refine ⟨r0, hr0, ?_⟩
      by_cases hj : r0.id = p.1.id
      · rw [if_pos hj] at hr01
        rw [← hr01] at hids
        simpa [hj] using hids
      · rw [if_neg hj] at hr01
        rw [hr01]
        exact hids
    · rw [if_neg hdel] at hmem
      exact ih db hmem

/-! ## Claim theorem for the delivery latch -/

/-- C2: the delivered (notified) flag is a one-way latch: insertAnomaly
on the detector path creates the row with notified false; marking and
re-marking can only turn the flag on, never off, and neither insertion
nor a whole notifier pass un-notifies any anomaly; the ledger state
after a notifier pass is exactly the fold of markAnomalyNotified over
the successfully delivered pending anomalies (the only mutation path);
and a pending anomaly whose delivery fails or throws is still present,
unnotified, in the next pending set, so a later pass retries it. -/
theorem anomaly_delivered_one_way_latch :
    (∀ (db : DbState) (a : AnomalyData),
       (insertAnomaly db a none).1.anomalies =
         db.anomalies ++ [⟨db.nextId, a.game_id, a.timestamp, a.delta, a.mean,
                           a.stddev, a.threshold, a.direction, false⟩]) ∧
    (∀ (db : DbState) (i j : Nat), notifiedLatched db i →
       notifiedLatched (markAnomalyNotified db j) i) ∧
    (∀ (db : DbState) (a : AnomalyData) (arg : Option Bool) (i : Nat),
       i ≠ db.nextId →
       notifiedLatched db i → notifiedLatched (insertAnomaly db a arg).1 i) ∧
    (∀ (games : List Game) (deliver : Nat → DeliveryOutcome) (db : DbState),
       (sendAnomalyNotifications games deliver db).1 =
         (getUnnotifiedAnomalies games db).foldl (fun d p =>
           if deliver p.1.id = .success then markAnomalyNotified d p.1.id else d) db) ∧
    (∀ (games : List Game) (deliver : Nat → DeliveryOutcome) (db : DbState) (i : Nat),
       notifiedLatched db i →
       notifiedLatched (sendAnomalyNotifications games deliver db).1 i) ∧
    (∀ (games : List Game) (deliver : Nat → DeliveryOutcome) (db : DbState)
       (p : AnomalyRow × Game),
       (db.anomalies.map AnomalyRow.id).Nodup →
       p ∈ getUnnotifiedAnomalies games db →
       deliver p.1.id ≠ .success →
       p ∈ getUnnotifiedAnomalies games (sendAnomalyNotifications games deliver db).1) := by
  refine ⟨?_, ?_, ?_, ?_, ?_, ?_⟩
  · intro db a
    rfl
  · exact markAnomalyNotified_latched
  · intro db a arg i hne h r hr hid
    rcases List.mem_append.mp hr with hold | hnew
    · exact h r hold hid
    · rcases List.mem_singleton.mp hnew with rfl
      exact absurd hid.symm hne
  · intro games deliver db
    exact sendLoop_db_eq_fold deliver _ db 0 0
  · intro games deliver db i h
    exact sendLoop_latched deliver _ db 0 0 i h
  · intro games deliver db p hnodup hp hfail
    have hpend := (mem_pending_iff games db p).mp hp
    have hinj := List.inj_on_of_nodup_map (pending_ids_nodup games db hnodup)
    have hsafe : ∀ q ∈ getUnnotifiedAnomalies games db,
        deliver q.1.id = .success → q.1.id ≠ p.1.id := by
      intro q hq hqdel heq
      have hqp : q = p := hinj hq hp heq
      rw [hqp] at hqdel
      exact hfail hqdel
    refine (mem_pending_iff games _ p).mpr ⟨?_, hpend.2.1, hpend.2.2⟩
    exact sendLoop_preserves_row deliver _ db 0 0 p.1 hpend.1 hsafe

/-- Witness for C2: in a ledger with two pending anomalies where delivery
of anomaly 0 fails and of anomaly 1 succeeds, anomaly 0 is still in the
pending set after the notifier pass. -/
theorem anomaly_delivered_one_way_latch_witness :
    (witnessDb.anomalies.map AnomalyRow.id).Nodup ∧
    witnessPending ∈ getUnnotifiedAnomalies [witnessGame] witnessDb ∧
    witnessDeliver witnessPending.1.id ≠ .success ∧
    witnessPending ∈ getUnnotifiedAnomalies [witnessGame]
      (sendAnomalyNotifications [witnessGame] witnessDeliver witnessDb).1 :=
  ⟨by decide, by decide, by decide,
   anomaly_delivered_one_way_latch.2.2.2.2.2 [witnessGame] witnessDeliver witnessDb
     witnessPending (by decide) (by decide) (by decide)⟩

/-! ## Retry and backoff lemmas -/

lemma getGo_all_fail (base : Rat) (rng : Nat → Rat × Rat)
    (results : Nat → Except String Int) (es : Nat → String) :
    ∀ (n start : Nat), (∀ k ≤ n, results (start + k) = .error (es (start + k))) →
      getGo base rng results n start =
        (.error (es (start + n)),
         (List.range n).map (fun k =>
           withJitter (base * 2 ^ (start + k)) (rng (start + k)).1 (rng (start + k)).2)) := by
  intro n
  induction n with
  | zero =>
    intro start h
    have h0 := h 0 (le_refl 0)
    simp only [Nat.add_zero] at h0
    simp [getGo, h0]
  | succ m ih =>
    intro start h
    have h0 := h 0 (by omega)
    simp only [Nat.add_zero] at h0
    have hrest := ih (start + 1) (by
      intro k hk
      have := h (k + 1) (by omega)
      simpa [Nat.add_assoc, Nat.add_comm 1 k] using this)
    simp only [getGo, h0]
    rw [hrest]
    refine Prod.ext ?_ ?_
    · simp only []
      congr 2
      omega
    · simp only []
      rw [List.range_succ_eq_map, List.map_cons, List.map_map]
      refine List.cons_eq_cons.mpr ⟨by simp, ?_⟩
      refine List.map_congr_left ?_
      intro k _
      simp only [Function.comp_apply]
      have harith : start + 1 + k = start + (k + 1) := by omega
      rw [harith]

lemma getGo_succeeds_after (base : Rat) (rng : Nat → Rat × Rat)
    (results : Nat → Except String Int) (es : Nat → String) (v : Int) :
    ∀ (n start : Nat), (∀ k < n, results (start + k) = .error (es (start + k))) →
      results (start + n) = .ok v →
      getGo base rng results n start =
        (.ok v,
         (List.range n).map (fun k =>
           withJitter (base * 2 ^ (start + k)) (rng (start + k)).1 (rng (start + k)).2)) := by
  intro n
  induction n with
  | zero =>
    intro start _ hok
    simp only [Nat.add_zero] at hok
    simp [getGo, hok]
  | succ m ih =>
    intro start h hok
    have h0 := h 0 (by omega)
    simp only [Nat.add_zero] at h0
    have hrest := ih (start + 1) (by
      intro k hk
      have := h (k + 1) (by omega)
      simpa [Nat.add_assoc, Nat.add_comm 1 k] using this)
      (by
        have : start + 1 + m = start + (m + 1) := by omega
        rw [this]
        exact hok)
    simp only [getGo, h0]
    rw [hrest]
    refine Prod.ext rfl ?_
    simp only []
    rw [List.range_succ_eq_map, List.map_cons, List.map_map]
    refine List.cons_eq_cons.mpr ⟨by simp, ?_⟩
    refine List.map_congr_left ?_
    intro k _
    simp only [Function.comp_apply]
    have harith : start + 1 + k = start + (k + 1) := by omega
    rw [harith]

lemma getGo_depends_on_first_attempts (base : Rat) (rng : Nat → Rat × Rat)
    (results results' : Nat → Except String Int) :
    ∀ (n start : Nat), (∀ k ≤ n, results (start + k) = results' (start + k)) →
      getGo base rng results n start = getGo base rng results' n start := by
  intro n
  induction n with
  | zero =>
    intro start h
    have h0 := h 0 (le_refl 0)
    simp only [Nat.add_zero] at h0
    simp [getGo, h0]
  | succ m ih =>
    intro start h
    have h0 := h 0 (by omega)
    simp only [Nat.add_zero] at h0
    have hrest := ih (start + 1) (by
      intro k hk
      have := h (k + 1) (by omega)
      simpa [Nat.add_assoc, Nat.add_comm 1 k] using this)
    simp only [getGo, h0, hrest]

/-! ## Claim theorem for the retry policy -/

/-- C7: httpGet makes at most 1 + RETRY_ATTEMPTS total attempts (its
result depends only on the outcomes of attempts 0 through retryAttempts)
and fails with the last observed error once they are exhausted, with one
backoff of base * 2 ^ (attempt - 1) before each retry and none before
the first attempt; an operation failing on every attempt but the last
returns the success value after exactly retryAttempts backoff sleeps;
and the jitter keeps each backoff within plus or minus 20 percent. -/
theorem retry_backoff_policy :
    (∀ (retryAttempts : Nat) (base : Rat) (rng : Nat → Rat × Rat)
       (results : Nat → Except String Int) (es : Nat → String),
       (∀ k ≤ retryAttempts, results k = .error (es k)) →
       httpGet retryAttempts base rng results =
         (.error (es retryAttempts),
          (List.range retryAttempts).map (fun k =>
            withJitter (base * 2 ^ k) (rng k).1 (rng k).2))) ∧
    (∀ (retryAttempts : Nat) (base : Rat) (rng : Nat → Rat × Rat)
       (results results' : Nat → Except String Int),
       (∀ k ≤ retryAttempts, results k = results' k) →
       httpGet retryAttempts base rng results =
         httpGet retryAttempts base rng results') ∧
    (∀ (retryAttempts : Nat) (base : Rat) (rng : Nat → Rat × Rat)
       (results : Nat → Except String Int) (es : Nat → String) (v : Int),
       (∀ k < retryAttempts, results k = .error (es k)) →
       results retryAttempts = .ok v →
       httpGet retryAttempts base rng results =
         (.ok v,
          (List.range retryAttempts).map (fun k =>
            withJitter (base * 2 ^ k) (rng k).1 (rng k).2)) ∧
       (httpGet retryAttempts base rng results).2.length = retryAttempts) ∧
    (∀ (base r1 r2 : Rat), 0 ≤ base → 0 ≤ r1 → r1 ≤ 1 →
       (8 / 10) * base ≤ withJitter base r1 r2 ∧
       withJitter base r1 r2 ≤ (12 / 10) * base) := by
  refine ⟨?_, ?_, ?_, ?_⟩
  · intro retryAttempts base rng results es h
    have := getGo_all_fail base rng results es retryAttempts 0
      (by intro k hk; simpa using h k hk)
    simpa [httpGet] using this
  · intro retryAttempts base rng results results' h
    have := getGo_depends_on_first_attempts base rng results results' retryAttempts 0
      (by intro k hk; simpa using h k hk)
    simpa [httpGet] using this
  · intro retryAttempts base rng results es v hfail hok
    have := getGo_succeeds_after base rng results es v retryAttempts 0
      (by intro k hk; simpa using hfail k hk)
      (by simpa using hok)
    refine ⟨by simpa [httpGet] using this, ?_⟩
    rw [httpGet]
    rw [show getGo base rng results retryAttempts 0 =
        (.ok v, (List.range retryAttempts).map (fun k =>
          withJitter (base * 2 ^ (0 + k)) (rng (0 + k)).1 (rng (0 + k)).2)) from this]
    simp
  · intro base r1 r2 hb h0 h1
    unfold withJitter
    constructor
    · split_ifs <;> nlinarith
    · split_ifs <;> nlinarith

/-- Witness for C7: two failures then a success with RETRY_ATTEMPTS = 2,
base backoff 100, and fixed random draws. -/
theorem retry_backoff_policy_witness :
    (∀ k < 2, (fun k => if k < 2 then (Except.error "boom" : Except String Int)
        else .ok 7) k = .error ((fun _ => "boom") k)) ∧
    (fun k => if k < 2 then (Except.error "boom" : Except String Int)
        else .ok 7) 2 = .ok 7 ∧
    httpGet 2 100 (fun _ => (1 / 2, 3 / 4))
        (fun k => if k < 2 then .error "boom" else .ok 7) =
      (.ok 7,
       (List.range 2).map (fun k =>
         withJitter (100 * 2 ^ k) ((fun _ => ((1 : Rat) / 2, (3 : Rat) / 4)) k).1
           ((fun _ => ((1 : Rat) / 2, (3 : Rat) / 4)) k).2)) :=
  ⟨by intro k hk; interval_cases k <;> rfl, rfl,
   (retry_backoff_policy.2.2.1 2 100 (fun _ => (1 / 2, 3 / 4))
     (fun k => if k < 2 then .error "boom" else .ok 7) (fun _ => "boom") 7
     (by intro k hk; interval_cases k <;> rfl) rfl).1⟩

/-! ## Scheduler lemmas -/

lemma processedCount_circularStep (games : List Game) (o : ParseResult)
    (s : CycleState) : processedCount (circularStep games o s) = processedCount s + 1 := by
  cases o <;> simp [circularStep, processedCount] <;> omega

lemma processedCount_durationStep (games : List Game) (o : ParseResult)
    (s : CycleState) : processedCount (durationStep games o s) = processedCount s + 1 := by
  cases o <;> simp [durationStep, processedCount] <;> omega

lemma circularRun_halts (games : List Game) (outcomes : Nat → ParseResult)
    (stop : Nat → Bool) (fuel : Nat) (s : CycleState)
    (h : stop (processedCount s) = true) :
    circularRun games outcomes stop fuel s = s := by
  cases fuel with
  | zero => rfl
  | succ k =>
    simp only [circularRun]
    rw [if_pos h]

lemma durationRun_halts (durationMs : Nat) (games : List Game)
    (outcomes : Nat → ParseResult) (itemTimes : Nat → Nat) (stop : Nat → Bool)
    (fuel : Nat) (s : DurationState)
    (h : stop (processedCount s.core) = true) :
    durationRun durationMs games outcomes itemTimes stop fuel s = s := by
  cases fuel with
  | zero => rfl
  | succ k =>
    simp only [durationRun]
    by_cases ht : durationMs ≤ s.elapsedMs
    · rw [if_pos ht]
    · rw [if_neg ht, if_pos h]

lemma circularRun_processed_le (games : List Game) (outcomes : Nat → ParseResult)
    (stop : Nat → Bool) (hm : ∀ m n, m ≤ n → stop m = true → stop n = true)
    (k : Nat) (hk : stop k = true) :
    ∀ (fuel : Nat) (s : CycleState), processedCount s ≤ k →
      processedCount (circularRun games outcomes stop fuel s) ≤ k := by
  intro fuel
  induction fuel with
  | zero => intro s hs; exact hs
  | succ f ih =>
    intro s hs
    simp only [circularRun]
    by_cases hstop : stop (processedCount s) = true
    · rw [if_pos hstop]
      exact hs
    · rw [if_neg hstop]
      have hlt : processedCount s < k := by
        rcases Nat.lt_or_ge (processedCount s) k with h | h
        · exact h
        · exact absurd (hm k (processedCount s) h hk) hstop
      refine ih _ ?_
      rw [processedCount_circularStep]
      omega

lemma durationRun_totalCycles (durationMs : Nat) (games : List Game)
    (outcomes : Nat → ParseResult) (itemTimes : Nat → Nat) (stop : Nat → Bool) :
    ∀ (fuel : Nat) (s : DurationState),
      (durationRun durationMs games outcomes itemTimes stop fuel s).totalCycles =
        s.totalCycles := by
  intro fuel
  induction fuel with
  | zero => intro s; rfl
  | succ f ih =>
    intro s
    simp only [durationRun]
    by_cases ht : durationMs ≤ s.elapsedMs
    · rw [if_pos ht]
    · rw [if_neg ht]
      by_cases hstop : stop (processedCount s.core) = true
      · rw [if_pos hstop]
      · rw [if_neg hstop]
        exact ih _

/-! ## Claim theorems for the scheduler -/

/-- C4 counterexample: in a one-game run whose single item succeeds, the
recorded onProgress invocation carries counters (0, 0) even though the
reported item succeeded, so the callback does not include the outcome of
the item being reported (the claim would require counters (1, 0)). -/
theorem progress_callback_counterexample :
    (circularRun [demoGame] (fun _ => .ok 42) (fun _ => false) 1
        initialCycleState).successfulParses = 1 ∧
    (circularRun [demoGame] (fun _ => .ok 42) (fun _ => false) 1
        initialCycleState).progressLog = [⟨1, 1, "G", 0, 0⟩] ∧
    (circularRun [demoGame] (fun _ => .ok 42) (fun _ => false) 1
        initialCycleState).progressLog ≠ [⟨1, 1, "G", 1, 0⟩] := by
  refine ⟨by decide, by decide, by decide⟩

/-- C4 amended: both loops invoke onProgress exactly once per item, but
before the item is processed: the counters passed are the values
accumulated over previously completed items only, and each iteration
then increments exactly one counter. -/
theorem progress_callback_before_processing :
    ∀ (games : List Game) (o : ParseResult) (s : CycleState),
      (circularStep games o s).progressLog = s.progressLog ++
        [⟨s.currentIndex + 1, games.length, (games.getD s.currentIndex defaultGame).title,
          s.successfulParses, s.failedParses⟩] ∧
      (durationStep games o s).progressLog = s.progressLog ++
        [⟨s.currentIndex + 1, games.length, (games.getD s.currentIndex defaultGame).title,
          s.successfulParses, s.failedParses⟩] ∧
      processedCount (circularStep games o s) = processedCount s + 1 ∧
      processedCount (durationStep games o s) = processedCount s + 1 := by
  intro games o s
  refine ⟨?_, ?_, processedCount_circularStep games o s, processedCount_durationStep games o s⟩
  · cases o <;> simp [circularStep]
  · cases o <;> simp [durationStep]

/-- C6 counterexample: after one successfully processed item the
unbounded loop has slept 1000 ms, not the 2000 ms the claim asserts for
both entry points. -/
theorem pacing_delay_counterexample :
    (circularStep [demoGame] (.ok 5) initialCycleState).sleeps = [1000] ∧
    (circularStep [demoGame] (.ok 5) initialCycleState).sleeps ≠ [2000] := by
  refine ⟨by decide, by decide⟩

/-- C6 amended: the unbounded loop body and the duration-bounded loop
body perform the same per-item algorithm (identical counters, errors,
cursor, snapshots and progress reporting), but their politeness delays
differ: circularOnlineParsing sleeps 1000 ms per item while
startCircularParsingForDuration sleeps 2000 ms. -/
theorem pacing_delay_same_algorithm :
    ∀ (games : List Game) (o : ParseResult) (s : CycleState),
      (circularStep games o s).successfulParses = (durationStep games o s).successfulParses ∧
      (circularStep games o s).failedParses = (durationStep games o s).failedParses ∧
      (circularStep games o s).errors = (durationStep games o s).errors ∧
      (circularStep games o s).currentIndex = (durationStep games o s).currentIndex ∧
      (circularStep games o s).snapshots = (durationStep games o s).snapshots ∧
      (circularStep games o s).progressLog = (durationStep games o s).progressLog ∧
      (circularStep games o s).sleeps = s.sleeps ++ [1000] ∧
      (durationStep games o s).sleeps = s.sleeps ++ [2000] := by
  intro games o s
  cases o <;> simp [circularStep, durationStep]

/-- C8: the scheduler consults shouldStop at the top of every iteration
and never starts another item afterwards: a loop entered with the stop
predicate already true returns its state unchanged (both loops); with a
monotone stop predicate true at k, no run ever exceeds k processed
items; and on a 5-game catalog with a predicate that becomes true once
2 items are processed, any run with fuel at least 2 processes exactly 2
items and the returned summary counts exactly 2. -/
theorem cancellation_checked_at_boundary :
    (∀ (games : List Game) (outcomes : Nat → ParseResult) (stop : Nat → Bool)
       (fuel : Nat) (s : CycleState), stop (processedCount s) = true →
       circularRun games outcomes stop fuel s = s) ∧
    (∀ (durationMs : Nat) (games : List Game) (outcomes : Nat → ParseResult)
       (itemTimes : Nat → Nat) (stop : Nat → Bool) (fuel : Nat) (s : DurationState),
       stop (processedCount s.core) = true →
       durationRun durationMs games outcomes itemTimes stop fuel s = s) ∧
    (∀ (games : List Game) (outcomes : Nat → ParseResult) (stop : Nat → Bool),
       (∀ m n, m ≤ n → stop m = true → stop n = true) →
       ∀ (k : Nat), stop k = true → ∀ (fuel : Nat),
         processedCount (circularRun games outcomes stop fuel initialCycleState) ≤ k) ∧
    (∀ (outcomes : Nat → ParseResult) (fuel : Nat), 2 ≤ fuel →
       processedCount (circularRun fiveGames outcomes (fun n => decide (2 ≤ n)) fuel
         initialCycleState) = 2 ∧
       (circularOnlineParsing fiveGames outcomes (fun n => decide (2 ≤ n))
           fuel).successfulParses +
         (circularOnlineParsing fiveGames outcomes (fun n => decide (2 ≤ n))
           fuel).failedParses = 2) := by
  refine ⟨circularRun_halts, durationRun_halts, ?_, ?_⟩
  · intro games outcomes stop hm k hk fuel
    exact circularRun_processed_le games outcomes stop hm k hk fuel initialCycleState
      (by simp [initialCycleState, processedCount])
  · intro outcomes fuel hfuel
    obtain ⟨f, rfl⟩ : ∃ f, fuel = f + 2 := ⟨fuel - 2, by omega⟩
    set stop2 : Nat → Bool := fun n => decide (2 ≤ n) with hstop2
    have h0 : processedCount initialCycleState = 0 := rfl
    have e1 : circularRun fiveGames outcomes stop2 (f + 2) initialCycleState =
        circularRun fiveGames outcomes stop2 (f + 1)
          (circularStep fiveGames (outcomes 0) initialCycleState) := by
      show circularRun fiveGames outcomes stop2 (f + 1 + 1) initialCycleState = _
      simp only [circularRun]
      rw [if_neg (by rw [h0]; simp [hstop2])]
      rfl
    set s1 := circularStep fiveGames (outcomes 0) initialCycleState with hs1
    have hp1 : processedCount s1 = 1 := by
      rw [hs1, processedCount_circularStep, h0]
    have e2 : circularRun fiveGames outcomes stop2 (f + 1) s1 =
        circularRun fiveGames outcomes stop2 f
          (circularStep fiveGames (outcomes 1) s1) := by
      show circularRun fiveGames outcomes stop2 (f + 1) s1 = _
      simp only [circularRun]
      rw [if_neg (by rw [hp1]; simp [hstop2])]
      rw [hp1]
    set s2 := circularStep fiveGames (outcomes 1) s1 with hs2
    have hp2 : processedCount s2 = 2 := by
      rw [hs2, processedCount_circularStep, hp1]
    have e3 : circularRun fiveGames outcomes stop2 f s2 = s2 :=
      circularRun_halts fiveGames outcomes stop2 f s2 (by rw [hp2]; simp [hstop2])
    have hrun : circularRun fiveGames outcomes stop2 (f + 2) initialCycleState = s2 := by
      rw [e1, e2, e3]
    constructor
    · rw [hrun, hp2]
    · have hne : fiveGames.length ≠ 0 := by decide
      unfold circularOnlineParsing
      rw [if_neg hne]
      simp only []
      rw [hrun]
      exact hp2

/-- Witness for C8: the cancellation scenario at fuel 3 with an
all-success outcome oracle. -/
theorem cancellation_checked_at_boundary_witness :
    (2 : Nat) ≤ 3 ∧
    processedCount (circularRun fiveGames (fun _ => .ok 1) (fun n => decide (2 ≤ n)) 3
      initialCycleState) = 2 ∧
    (circularOnlineParsing fiveGames (fun _ => .ok 1) (fun n => decide (2 ≤ n))
        3).successfulParses +
      (circularOnlineParsing fiveGames (fun _ => .ok 1) (fun n => decide (2 ≤ n))
        3).failedParses = 2 :=
  ⟨by decide,
   (cancellation_checked_at_boundary.2.2.2 (fun _ => .ok 1) 3 (by decide)).1,
   (cancellation_checked_at_boundary.2.2.2 (fun _ => .ok 1) 3 (by decide)).2⟩

/-- C10: over a non-empty catalog the summary returned by
startCircularParsingForDuration always reports totalCycles 0 (the
counter is declared and returned but never incremented), so the
completed-cycles line of the operator-facing completion message always
renders 0. -/
theorem duration_summary_total_cycles_zero :
    ∀ (durationMs : Nat) (games : List Game) (outcomes : Nat → ParseResult)
      (itemTimes : Nat → Nat) (stop : Nat → Bool) (fuel : Nat),
      games ≠ [] →
      (startCircularParsingForDuration durationMs games outcomes itemTimes stop
        fuel).totalCycles = 0 ∧
      completedCyclesLine (startCircularParsingForDuration durationMs games outcomes
        itemTimes stop fuel).totalCycles = "🔄 Завершено кругов: 0" := by
  intro durationMs games outcomes itemTimes stop fuel hne
  have hlen : games.length ≠ 0 := by
    simpa [List.length_eq_zero] using hne
  have hz : (startCircularParsingForDuration durationMs games outcomes itemTimes stop
      fuel).totalCycles = 0 := by
    unfold startCircularParsingForDuration
    rw [if_neg hlen]
    simp only []
    rw [durationRun_totalCycles]
  exact ⟨hz, by rw [hz]; rfl⟩

/-- Witness for C10: a concrete bounded run over the one-game catalog
reports zero completed cycles. -/
theorem duration_summary_total_cycles_zero_witness :
    ([demoGame] : List Game) ≠ [] ∧
    (startCircularParsingForDuration 10000 [demoGame] (fun _ => .ok 5) (fun _ => 50)
      (fun _ => false) 3).totalCycles = 0 :=
  ⟨by decide,
   (duration_summary_total_cycles_zero 10000 [demoGame] (fun _ => .ok 5) (fun _ => 50)
     (fun _ => false) 3 (by decide)).1⟩

end RblxMonitor
